import Mathlib

/-!
Shallow embedding of `src/backend/controllers/courseController.js`
(course CRUD + search controller of the `Web-` repository), together with
theorems checking the natural-language specification against it.

Modelling conventions, stated once:
* A JavaScript number that may be `NaN` is modelled as `JSNum := Option ℚ`,
  with `none` standing for `NaN`.  The credit-hour fields of a request body
  are modelled by their numeric coercion (the result of `parseFloat` on the
  create path, of the implicit `Number` coercion on the update path):
  `none` represents a non-numeric input.
* The Mongo collection is modelled as a `List Course` in natural (insertion)
  order; `_id` is modelled as `Nat`.  `Course.find({code: {$in: codes}})`
  is a filter over that list, `findByIdAndUpdate` / `findByIdAndDelete`
  act on the first document carrying the id, `populate("prerequisites",
  "code name")` resolves each stored id to a `code`/`name` projection,
  dropping dangling ids.
* JavaScript string helpers (`split(",")`, `trim()`, `join(", ")`,
  `parseInt`) are re-implemented structurally so that every definition
  evaluates by kernel reduction.  `jsParseInt` models the decimal behaviour
  of `parseInt` (leading whitespace, optional sign, leading digits, `NaN`
  when no digit is found); radix prefixes are outside the inputs considered
  here.
* A Mongo `$regex` filter with option `"i"` is modelled by `ciRegexMatch`,
  an unanchored case-insensitive matcher for the fragment of JS regexes
  consisting of literal characters and the `.` wildcard (which matches any
  character except a line terminator).  This is faithful for every pattern
  that contains no regex metacharacter other than possibly `.`; all
  theorems below that touch these filters restrict to such patterns via
  `noRegexMeta`.
* Mongo's comparison order places `NaN` below every other number and equal
  to itself; `bsonLe` reflects that.
* HTTP responses are modelled by their status code, message and payload;
  each operation also returns the collection after the operation, which
  captures "no durable change on failure".  Persistence-layer failures
  (the `catch` / 500 paths) are outside the model.
-/

/-- A JavaScript number which may be `NaN` (`none`). -/
abbrev JSNum := Option ℚ

/-- `isNaN(x)` on a `JSNum`. -/
def jsIsNaN (x : JSNum) : Bool := x.isNone

/-- `x < q` in JavaScript: every comparison with `NaN` is false. -/
def jsLt (x : JSNum) (q : ℚ) : Bool :=
  match x with
  | none => false
  | some a => decide (a < q)

/-- `x > q` in JavaScript: every comparison with `NaN` is false. -/
def jsGt (x : JSNum) (q : ℚ) : Bool :=
  match x with
  | none => false
  | some a => decide (q < a)

/-- A course document of the store (`courseSchema`): `_id` plus the fields
written by the controller.  `prerequisites` holds `_id` references. -/
structure Course where
  id : Nat
  code : String
  name : String
  department : String
  semester : String
  lectureCreditHours : JSNum
  labCreditHours : JSNum
  prerequisites : List Nat
deriving DecidableEq

/-- The request body destructured by `addCourse` / `updateCourse`.
`prerequisites` is the raw comma-separated string; the empty string models
a falsy (absent or empty) value, matching `if (prerequisites)`. -/
structure CourseReq where
  code : String
  name : String
  prerequisites : String
  department : String
  semester : String
  lectureCreditHours : JSNum
  labCreditHours : JSNum
deriving DecidableEq

/-- Response of the add / update / delete handlers: HTTP status, message,
the course payload when one is returned, and the collection after the
request (unchanged on failure). -/
structure Response where
  status : Nat
  message : String
  payload : Option Course
  store : List Course
deriving DecidableEq

/-- JavaScript truthiness of a string: falsy exactly when empty. -/
def strFalsy (s : String) : Bool := s.data.isEmpty

/-- Helper for `String.prototype.split(",")`. -/
def splitOnCommaAux : List Char → List Char → List String
  | [], acc => [String.mk acc.reverse]
  | c :: cs, acc =>
      if c == ',' then String.mk acc.reverse :: splitOnCommaAux cs []
      else splitOnCommaAux cs (c :: acc)

/-- `s.split(",")` of JavaScript (structural re-implementation). -/
def splitOnComma (s : String) : List String := splitOnCommaAux s.data []

/-- `s.trim()` of JavaScript: strip leading and trailing whitespace. -/
def jsTrim (s : String) : String :=
  String.mk (((s.data.dropWhile Char.isWhitespace).reverse.dropWhile Char.isWhitespace).reverse)

/-- `missing.join(", ")` of JavaScript. -/
def joinCommaSpace : List String → String
  | [] => ""
  | [s] => s
  | s :: rest => s ++ ", " ++ joinCommaSpace rest

/-- `Course.find({ code: { $in: codes } })`: the documents whose code is in
the candidate list, in collection order. -/
def findByCodes (store : List Course) (codes : List String) : List Course :=
  store.filter (fun c => codes.contains c.code)

/-- `prerequisiteCodes.filter(code => !prerequisiteCourses.some(course =>
course.code === code))`. -/
def missingOf (codes : List String) (found : List Course) : List String :=
  codes.filter (fun code => !(found.any (fun c => c.code == code)))

/-- The candidate codes of the create path:
`prerequisites.split(",").map(prereq => prereq.trim())`. -/
def addPrereqTokens (p : String) : List String := (splitOnComma p).map jsTrim

/-- The candidate codes of the update path: `prerequisites.split(",")`,
with no trimming. -/
def updPrereqTokens (p : String) : List String := splitOnComma p

/-- The 404 message built by both handlers for unresolved prerequisites. -/
def prereqNotFoundMsg (missing : List String) : String :=
  "Prerequisite courses not found: " ++ joinCommaSpace missing

/-- `new Course({...})` as built by `addCourse` (hours already parsed). -/
def mkNewCourse (newId : Nat) (req : CourseReq) (prereqIds : List Nat) : Course :=
  { id := newId
    code := req.code
    name := req.name
    department := req.department
    semester := req.semester
    lectureCreditHours := req.lectureCreditHours
    labCreditHours := req.labCreditHours
    prerequisites := prereqIds }

/-- `isNaN(lectureCreditHoursNum) || isNaN(labCreditHoursNum)` of `addCourse`. -/
def addHoursNaN (req : CourseReq) : Bool :=
  jsIsNaN req.lectureCreditHours || jsIsNaN req.labCreditHours

/-- The range condition of `addCourse`:
`lectureCreditHoursNum < 1 || lectureCreditHoursNum > 3 || labCreditHoursNum < 0 || labCreditHoursNum > 1`. -/
def addHoursOutOfRange (req : CourseReq) : Bool :=
  jsLt req.lectureCreditHours 1 || jsGt req.lectureCreditHours 3 ||
  jsLt req.labCreditHours 0 || jsGt req.labCreditHours 1

/-- The validation condition of `updateCourse`:
`lectureCreditHours < 1 || lectureCreditHours > 3 || labCreditHours < 0 || labCreditHours > 1`,
on the raw (possibly `NaN`) values — there is no `isNaN` step on this path. -/
def updHoursInvalid (req : CourseReq) : Bool :=
  jsLt req.lectureCreditHours 1 || jsGt req.lectureCreditHours 3 ||
  jsLt req.labCreditHours 0 || jsGt req.labCreditHours 1

/-- `addCourse` of `courseController.js`.  `newId` is the `_id` the store
assigns on a successful insert. -/
def addCourse (store : List Course) (newId : Nat) (req : CourseReq) : Response :=
  if addHoursNaN req then
    { status := 400, message := "Invalid credit hours, must be a number", payload := none, store := store }
  else if addHoursOutOfRange req then
    { status := 400, message := "Invalid credit hours range", payload := none, store := store }
  else if strFalsy req.prerequisites then
    let nc := mkNewCourse newId req []
    { status := 201, message := "Course added successfully", payload := some nc, store := store ++ [nc] }
  else
    let toks := addPrereqTokens req.prerequisites
    let found := findByCodes store toks
    let missing := missingOf toks found
    if missing.isEmpty then
      let nc := mkNewCourse newId req (found.map (fun c => c.id))
      { status := 201, message := "Course added successfully", payload := some nc, store := store ++ [nc] }
    else
      { status := 404, message := prereqNotFoundMsg missing, payload := none, store := store }

/-- The document produced by `findByIdAndUpdate` with `{new: true}`: every
listed field replaced, the `_id` kept. -/
def updatedCourse (c : Course) (req : CourseReq) (prereqIds : List Nat) : Course :=
  { id := c.id
    code := req.code
    name := req.name
    department := req.department
    semester := req.semester
    lectureCreditHours := req.lectureCreditHours
    labCreditHours := req.labCreditHours
    prerequisites := prereqIds }

/-- Replace the first document with the given id. -/
def replaceFirstById : List Course → Nat → Course → List Course
  | [], _, _ => []
  | c :: cs, i, c2 => if c.id == i then c2 :: cs else c :: replaceFirstById cs i c2

/-- `Course.findByIdAndUpdate(courseId, fields, {new: true})` followed by
the not-found check of `updateCourse`. -/
def updateApply (store : List Course) (courseId : Nat) (req : CourseReq)
    (prereqIds : List Nat) : Response :=
  match store.find? (fun c => c.id == courseId) with
  | none => { status := 404, message := "Course not found", payload := none, store := store }
  | some c =>
      { status := 200, message := "Course updated successfully",
        payload := some (updatedCourse c req prereqIds),
        store := replaceFirstById store courseId (updatedCourse c req prereqIds) }

/-- `updateCourse` of `courseController.js`. -/
def updateCourse (store : List Course) (courseId : Nat) (req : CourseReq) : Response :=
  if updHoursInvalid req then
    { status := 400, message := "Invalid credit hours", payload := none, store := store }
  else if strFalsy req.prerequisites then updateApply store courseId req []
  else
    let toks := updPrereqTokens req.prerequisites
    let found := findByCodes store toks
    let missing := missingOf toks found
    if missing.isEmpty then updateApply store courseId req (found.map (fun c => c.id))
    else { status := 404, message := prereqNotFoundMsg missing, payload := none, store := store }

/-- Remove the first document with the given id (`findByIdAndDelete`). -/
def removeFirstById : List Course → Nat → List Course
  | [], _ => []
  | c :: cs, i => if c.id == i then cs else c :: removeFirstById cs i

/-- `deleteCourse` of `courseController.js`. -/
def deleteCourse (store : List Course) (courseId : Nat) : Response :=
  match store.find? (fun c => c.id == courseId) with
  | none => { status := 404, message := "Course not found", payload := none, store := store }
  | some _ =>
      { status := 200, message := "Course deleted successfully", payload := none,
        store := removeFirstById store courseId }

/-- The `{code, name}` projection produced by
`populate("prerequisites", "code name")`. -/
structure PopulatedPrereq where
  code : String
  name : String
deriving DecidableEq

/-- Expansion of the stored prerequisite ids of one course to `{code,name}`
projections; a dangling id resolves to nothing. -/
def expandPrereqs (store : List Course) (c : Course) : List PopulatedPrereq :=
  c.prerequisites.filterMap (fun i =>
    (store.find? (fun p => p.id == i)).map (fun p => { code := p.code, name := p.name }))

/-- `getAllCourses`: every course paired with its expanded prerequisites. -/
def getAllCourses (store : List Course) : List (Course × List PopulatedPrereq) :=
  store.map (fun c => (c, expandPrereqs store c))

/-! ### The search endpoint -/

/-- A token of the modelled JS-regex fragment: a literal character or the
`.` wildcard. -/
inductive RTok where
  | dot : RTok
  | lit : Char → RTok
deriving DecidableEq

/-- Tokenise a pattern: `.` becomes the wildcard, everything else a
literal.  Faithful to JS regex syntax for patterns containing no other
metacharacter (see `noRegexMeta`). -/
def lexChars (cs : List Char) : List RTok :=
  cs.map (fun c => if c == '.' then RTok.dot else RTok.lit c)

/-- One token against one character, case-insensitively (`"i"` option);
`.` matches everything except a line terminator. -/
def rtokMatches (t : RTok) (c : Char) : Bool :=
  match t with
  | RTok.dot => !(c == Char.ofNat 10 || c == Char.ofNat 13)
  | RTok.lit a => a.toLower == c.toLower

/-- Anchored match of a token list at the start of the text. -/
def rtoksAt : List RTok → List Char → Bool
  | [], _ => true
  | _ :: _, [] => false
  | t :: ts, c :: cs => rtokMatches t c && rtoksAt ts cs

/-- Unanchored search: the token list matches at some position. -/
def rtokSearch (ts : List RTok) : List Char → Bool
  | [] => rtoksAt ts []
  | c :: cs => rtoksAt ts (c :: cs) || rtokSearch ts cs

/-- `{$regex: pat, $options: "i"}` applied to `s` (for the modelled
pattern fragment). -/
def ciRegexMatch (pat s : String) : Bool := rtokSearch (lexChars pat.data) s.data

/-- The JS regex metacharacters.  `Char.ofNat 123` / `125` are the curly
braces. -/
def regexMetaChars : List Char :=
  ['\\', '^', '$', '.', '|', '?', '*', '+', '(', ')', '[', ']',
   Char.ofNat 123, Char.ofNat 125]

/-- The pattern contains no regex metacharacter, so `$regex` degenerates
to a plain (case-insensitive, unanchored) substring test. -/
def noRegexMeta (pat : String) : Bool :=
  pat.data.all (fun c => !(regexMetaChars.contains c))

/-- Case-insensitive anchored comparison of a plain pattern with the start
of the text. -/
def ciMatchesAt : List Char → List Char → Bool
  | [], _ => true
  | _ :: _, [] => false
  | p :: ps, c :: cs => p.toLower == c.toLower && ciMatchesAt ps cs

/-- Case-insensitive occurrence of a plain pattern anywhere in the text. -/
def ciOccurs (ps : List Char) : List Char → Bool
  | [] => ciMatchesAt ps []
  | c :: cs => ciMatchesAt ps (c :: cs) || ciOccurs ps cs

/-- Case-insensitive substring test, the reading of the specification's
"case-insensitive substring match". -/
def ciSubstring (pat s : String) : Bool := ciOccurs pat.data s.data

/-- Numeric value of a digit string. -/
def digitsToNat (ds : List Char) : Nat :=
  ds.foldl (fun acc c => acc * 10 + (c.toNat - 48)) 0

/-- Leading decimal digits of a character list, `none` when there are
none. -/
def parseDigits (cs : List Char) : Option Nat :=
  let ds := cs.takeWhile (fun c => c.isDigit)
  if ds.isEmpty then none else some (digitsToNat ds)

/-- `parseInt` of JavaScript on decimal input: skip leading whitespace,
optional sign, value of the leading digit run; `NaN` when no digit
follows. -/
def jsParseInt (s : String) : Option Int :=
  match s.data.dropWhile (fun c => c.isWhitespace) with
  | '-' :: rest => (parseDigits rest).map (fun n => -(n : Int))
  | '+' :: rest => (parseDigits rest).map (fun n => (n : Int))
  | cs => (parseDigits cs).map (fun n => (n : Int))

/-- A query bound as stored in the Mongo filter: `parseInt` of the query
string, as a (possibly `NaN`) number. -/
def qNum (s : String) : JSNum := (jsParseInt s).map (fun n => (n : ℚ))

/-- Mongo's `≤` on numbers: `NaN` sorts below every number and equal to
itself. -/
def bsonLe (x y : JSNum) : Bool :=
  match x, y with
  | none, _ => true
  | some _, none => false
  | some a, some b => decide (a ≤ b)

/-- The query-string filter of `searchCourse`; the empty string models an
absent (falsy) parameter. -/
structure SearchQuery where
  code : String
  name : String
  department : String
  semester : String
  minLectureHours : String
  maxLectureHours : String
  minLabHours : String
  maxLabHours : String
deriving DecidableEq

/-- The filter with no constraint supplied. -/
def emptyQuery : SearchQuery :=
  { code := "", name := "", department := "", semester := "",
    minLectureHours := "", maxLectureHours := "", minLabHours := "", maxLabHours := "" }

/-- Whether a document satisfies the dynamic query object built by
`searchCourse`: regex filters for `code`/`name`/`department`, exact match
for `semester`, and `$gte`/`$lte` bounds obtained with `parseInt`. -/
def matchesQuery (q : SearchQuery) (c : Course) : Bool :=
  (strFalsy q.code || ciRegexMatch q.code c.code) &&
  (strFalsy q.name || ciRegexMatch q.name c.name) &&
  (strFalsy q.department || ciRegexMatch q.department c.department) &&
  (strFalsy q.semester || c.semester == q.semester) &&
  (strFalsy q.minLectureHours || bsonLe (qNum q.minLectureHours) c.lectureCreditHours) &&
  (strFalsy q.maxLectureHours || bsonLe c.lectureCreditHours (qNum q.maxLectureHours)) &&
  (strFalsy q.minLabHours || bsonLe (qNum q.minLabHours) c.labCreditHours) &&
  (strFalsy q.maxLabHours || bsonLe c.labCreditHours (qNum q.maxLabHours))

/-- Response of the search handler.  The 200 branch of the source carries
no message; it is modelled as the empty string. -/
structure SearchResponse where
  status : Nat
  message : String
  courses : List (Course × List PopulatedPrereq)
deriving DecidableEq

/-- `searchCourse` of `courseController.js`. -/
def searchCourse (store : List Course) (q : SearchQuery) : SearchResponse :=
  let courses := store.filter (matchesQuery q)
  if courses.isEmpty then
    { status := 404, message := "No courses found matching the criteria", courses := [] }
  else
    { status := 200, message := "", courses := courses.map (fun c => (c, expandPrereqs store c)) }

/-! ### Specification-side definitions

These definitions follow the wording of the specification, to be compared
with the source-derived ones above. -/

/-- Fractional part of a decimal literal. -/
def decimalCore (cs : List Char) : Option ℚ :=
  let intPart := cs.takeWhile (fun c => c.isDigit)
  let rest := cs.dropWhile (fun c => c.isDigit)
  match rest with
  | '.' :: fracCs =>
      let frac := fracCs.takeWhile (fun c => c.isDigit)
      if intPart.isEmpty && frac.isEmpty then none
      else some ((digitsToNat intPart : ℚ) + (digitsToNat frac : ℚ) / ((10 : ℚ) ^ frac.length))
  | _ => if intPart.isEmpty then none else some ((digitsToNat intPart : ℚ))

/-- Modelled from the spec: the numeric value of a filter bound, fractional
part included — what "inclusive numeric bounds" refers to.  (The source
routes bounds through `parseInt` instead; see `jsParseInt`.) -/
def decimalVal (s : String) : Option ℚ :=
  match s.data with
  | '-' :: rest => (decimalCore rest).map (fun a => -a)
  | '+' :: rest => decimalCore rest
  | cs => decimalCore cs

/-- Modelled from the spec: the filter semantics claimed by the
specification — case-insensitive substring matches, exact semester match,
and inclusive bounds at the full numeric value of the filter strings. -/
def claimMatches (q : SearchQuery) (c : Course) : Bool :=
  (strFalsy q.code || ciSubstring q.code c.code) &&
  (strFalsy q.name || ciSubstring q.name c.name) &&
  (strFalsy q.department || ciSubstring q.department c.department) &&
  (strFalsy q.semester || c.semester == q.semester) &&
  (strFalsy q.minLectureHours || bsonLe (decimalVal q.minLectureHours) c.lectureCreditHours) &&
  (strFalsy q.maxLectureHours || bsonLe c.lectureCreditHours (decimalVal q.maxLectureHours)) &&
  (strFalsy q.minLabHours || bsonLe (decimalVal q.minLabHours) c.labCreditHours) &&
  (strFalsy q.maxLabHours || bsonLe c.labCreditHours (decimalVal q.maxLabHours))

/-- The amended filter semantics: substring matches as the specification
says, but bounds truncated through `parseInt` as the source does. -/
def specMatches (q : SearchQuery) (c : Course) : Bool :=
  (strFalsy q.code || ciSubstring q.code c.code) &&
  (strFalsy q.name || ciSubstring q.name c.name) &&
  (strFalsy q.department || ciSubstring q.department c.department) &&
  (strFalsy q.semester || c.semester == q.semester) &&
  (strFalsy q.minLectureHours || bsonLe (qNum q.minLectureHours) c.lectureCreditHours) &&
  (strFalsy q.maxLectureHours || bsonLe c.lectureCreditHours (qNum q.maxLectureHours)) &&
  (strFalsy q.minLabHours || bsonLe (qNum q.minLabHours) c.labCreditHours) &&
  (strFalsy q.maxLabHours || bsonLe c.labCreditHours (qNum q.maxLabHours))

/-! ### Supporting lemmas -/

theorem strFalsy_eq_false_iff (s : String) : strFalsy s = false ↔ s ≠ "" := by
  cases s with
  | mk data => cases data <;> simp [strFalsy, String.ext_iff]

theorem jsLt_eq_true_iff (x : JSNum) (q : ℚ) :
    jsLt x q = true ↔ ∃ a, x = some a ∧ a < q := by
  cases x <;> simp [jsLt]

theorem jsGt_eq_true_iff (x : JSNum) (q : ℚ) :
    jsGt x q = true ↔ ∃ a, x = some a ∧ q < a := by
  cases x <;> simp [jsGt]

theorem addHoursNaN_eq_true_iff (req : CourseReq) :
    addHoursNaN req = true ↔
      req.lectureCreditHours = none ∨ req.labCreditHours = none := by
  cases h1 : req.lectureCreditHours <;> cases h2 : req.labCreditHours <;>
    simp [addHoursNaN, jsIsNaN, h1, h2]

theorem addHoursOutOfRange_eq_true_iff (req : CourseReq) :
    addHoursOutOfRange req = true ↔
      ((∃ a, req.lectureCreditHours = some a ∧ (a < 1 ∨ 3 < a)) ∨
       (∃ a, req.labCreditHours = some a ∧ (a < 0 ∨ 1 < a))) := by
  simp only [addHoursOutOfRange, Bool.or_eq_true, jsLt_eq_true_iff, jsGt_eq_true_iff]
  constructor
  · rintro (((⟨a, ha, h⟩ | ⟨a, ha, h⟩) | ⟨a, ha, h⟩) | ⟨a, ha, h⟩)
    · exact Or.inl ⟨a, ha, Or.inl h⟩
    · exact Or.inl ⟨a, ha, Or.inr h⟩
    · exact Or.inr ⟨a, ha, Or.inl h⟩
    · exact Or.inr ⟨a, ha, Or.inr h⟩
  · rintro (⟨a, ha, h | h⟩ | ⟨a, ha, h | h⟩)
    · exact Or.inl (Or.inl (Or.inl ⟨a, ha, h⟩))
    · exact Or.inl (Or.inl (Or.inr ⟨a, ha, h⟩))
    · exact Or.inl (Or.inr ⟨a, ha, h⟩)
    · exact Or.inr ⟨a, ha, h⟩

theorem updHoursInvalid_eq_true_iff (req : CourseReq) :
    updHoursInvalid req = true ↔
      ((∃ a, req.lectureCreditHours = some a ∧ (a < 1 ∨ 3 < a)) ∨
       (∃ a, req.labCreditHours = some a ∧ (a < 0 ∨ 1 < a))) :=
  addHoursOutOfRange_eq_true_iff req

theorem updateApply_status (store : List Course) (courseId : Nat) (req : CourseReq)
    (prereqIds : List Nat) :
    (updateApply store courseId req prereqIds).status = 404 ∨
    (updateApply store courseId req prereqIds).status = 200 := by
  unfold updateApply
  cases store.find? (fun c => c.id == courseId) <;> simp

theorem addCourse_nan_case {req : CourseReq} (store : List Course) (newId : Nat)
    (h : addHoursNaN req = true) :
    addCourse store newId req =
      { status := 400, message := "Invalid credit hours, must be a number",
        payload := none, store := store } := by
  unfold addCourse
  simp [h]

theorem addCourse_range_case {req : CourseReq} (store : List Course) (newId : Nat)
    (h1 : addHoursNaN req = false) (h2 : addHoursOutOfRange req = true) :
    addCourse store newId req =
      { status := 400, message := "Invalid credit hours range",
        payload := none, store := store } := by
  unfold addCourse
  simp [h1, h2]

theorem addCourse_checks_pass {req : CourseReq} (store : List Course) (newId : Nat)
    (h1 : addHoursNaN req = false) (h2 : addHoursOutOfRange req = false) :
    (addCourse store newId req).status = 201 ∨
    ((addCourse store newId req).status = 404 ∧
     (addCourse store newId req).store = store ∧
     (addCourse store newId req).payload = none) := by
  unfold addCourse
  simp only [h1, h2, Bool.false_eq_true, if_false]
  split
  · simp
  · split <;> simp

theorem updateCourse_invalid_case {req : CourseReq} (store : List Course) (courseId : Nat)
    (h : updHoursInvalid req = true) :
    updateCourse store courseId req =
      { status := 400, message := "Invalid credit hours", payload := none, store := store } := by
  unfold updateCourse
  simp [h]

theorem updateCourse_check_passes {req : CourseReq} (store : List Course) (courseId : Nat)
    (h : updHoursInvalid req = false) :
    (updateCourse store courseId req).status = 404 ∨
    (updateCourse store courseId req).status = 200 := by
  unfold updateCourse
  simp only [h, Bool.false_eq_true, if_false]
  split
  · exact updateApply_status store courseId _ []
  · split
    · exact updateApply_status store courseId _ _
    · simp

/-! ### C2 -/

/-- C2 (confirmed): `addCourse` answers 400 and leaves the store unchanged
with no payload exactly when a credit-hour field is non-numeric or the
parsed lecture hours fall outside [1,3] or the parsed lab hours fall
outside [0,1]; and when a field is non-numeric, the message is the
numeric-parse one, i.e. that check runs before the range check. -/
theorem addCourse_invalidInput_iff (store : List Course) (newId : Nat) (req : CourseReq) :
    (((addCourse store newId req).status = 400 ∧
      (addCourse store newId req).store = store ∧
      (addCourse store newId req).payload = none) ↔
      (req.lectureCreditHours = none ∨ req.labCreditHours = none ∨
       (∃ a, req.lectureCreditHours = some a ∧ (a < 1 ∨ 3 < a)) ∨
       (∃ a, req.labCreditHours = some a ∧ (a < 0 ∨ 1 < a)))) ∧
    ((req.lectureCreditHours = none ∨ req.labCreditHours = none) →
      (addCourse store newId req).message = "Invalid credit hours, must be a number") := by
  constructor
  · constructor
    · rintro ⟨hs, -, -⟩
      by_cases h1 : addHoursNaN req = true
      · rcases (addHoursNaN_eq_true_iff req).mp h1 with h | h
        · exact Or.inl h
        · exact Or.inr (Or.inl h)
      · have h1' : addHoursNaN req = false := by
          simpa using h1
        by_cases h2 : addHoursOutOfRange req = true
        · rcases (addHoursOutOfRange_eq_true_iff req).mp h2 with h | h
          · exact Or.inr (Or.inr (Or.inl h))
          · exact Or.inr (Or.inr (Or.inr h))
        · have h2' : addHoursOutOfRange req = false := by
            simpa using h2
          rcases addCourse_checks_pass store newId h1' h2' with h | ⟨h, -, -⟩ <;>
            rw [hs] at h <;> simp at h
    · intro hcond
      by_cases h1 : addHoursNaN req = true
      · rw [addCourse_nan_case store newId h1]
        simp
      · have h1' : addHoursNaN req = false := by simpa using h1
        have h2 : addHoursOutOfRange req = true := by
          rcases hcond with h | h | h | h
          · exact absurd ((addHoursNaN_eq_true_iff req).mpr (Or.inl h)) h1
          · exact absurd ((addHoursNaN_eq_true_iff req).mpr (Or.inr h)) h1
          · exact (addHoursOutOfRange_eq_true_iff req).mpr (Or.inl h)
          · exact (addHoursOutOfRange_eq_true_iff req).mpr (Or.inr h)
        rw [addCourse_range_case store newId h1' h2]
        simp
  · intro h
    have h1 : addHoursNaN req = true := (addHoursNaN_eq_true_iff req).mpr h
    rw [addCourse_nan_case store newId h1]

/-- C2 witness: a concrete non-numeric lab-hours request is rejected with
400, no stored record, and the numeric-parse message. -/
theorem addCourse_invalidInput_iff_witness :
    ((addCourse [] 0
        { code := "CS101", name := "Intro", prerequisites := "", department := "CS",
          semester := "Fall", lectureCreditHours := some 2, labCreditHours := none }).status = 400 ∧
     (addCourse [] 0
        { code := "CS101", name := "Intro", prerequisites := "", department := "CS",
          semester := "Fall", lectureCreditHours := some 2, labCreditHours := none }).store = [] ∧
     (addCourse [] 0
        { code := "CS101", name := "Intro", prerequisites := "", department := "CS",
          semester := "Fall", lectureCreditHours := some 2, labCreditHours := none }).payload = none) ∧
    (addCourse [] 0
        { code := "CS101", name := "Intro", prerequisites := "", department := "CS",
          semester := "Fall", lectureCreditHours := some 2, labCreditHours := none }).message =
      "Invalid credit hours, must be a number" :=
  ⟨(addCourse_invalidInput_iff [] 0 _).1.mpr (Or.inr (Or.inl rfl)),
   (addCourse_invalidInput_iff [] 0 _).2 (Or.inr rfl)⟩

/-! ### C1 -/

/-- C1 counterexample: an UpdateCourse request whose credit-hour values
are both non-numeric (`NaN`) is *not* rejected by the range check — on a
store containing the course it answers 200, not 400, because `NaN` fails
every comparison and so the rejection condition is false. -/
theorem updateCourse_nonNumeric_not_rejected_cex :
    (updateCourse
        [{ id := 0, code := "CS101", name := "Intro", department := "CS", semester := "Fall",
           lectureCreditHours := some 3, labCreditHours := some 1, prerequisites := [] }] 0
        { code := "CS101", name := "Intro", prerequisites := "", department := "CS",
          semester := "Fall", lectureCreditHours := none, labCreditHours := none }).status = 200 ∧
    (updateCourse
        [{ id := 0, code := "CS101", name := "Intro", department := "CS", semester := "Fall",
           lectureCreditHours := some 3, labCreditHours := some 1, prerequisites := [] }] 0
        { code := "CS101", name := "Intro", prerequisites := "", department := "CS",
          semester := "Fall", lectureCreditHours := none, labCreditHours := none }).status ≠ 400 := by
  decide

/-- C1 (amended): the `updateCourse` range check never fires on `NaN`:
the handler answers 400 exactly when one of the credit-hour values is
numeric and out of range; non-numeric values pass the check and the
operation proceeds to prerequisite resolution and the id lookup. -/
theorem updateCourse_invalidInput_iff (store : List Course) (courseId : Nat) (req : CourseReq) :
    (updateCourse store courseId req).status = 400 ↔
      ((∃ a, req.lectureCreditHours = some a ∧ (a < 1 ∨ 3 < a)) ∨
       (∃ a, req.labCreditHours = some a ∧ (a < 0 ∨ 1 < a))) := by
  constructor
  · intro hs
    by_cases h : updHoursInvalid req = true
    · exact (updHoursInvalid_eq_true_iff req).mp h
    · have h' : updHoursInvalid req = false := by simpa using h
      rcases updateCourse_check_passes store courseId h' with hb | hb <;>
        rw [hs] at hb <;> simp at hb
  · intro hcond
    have h : updHoursInvalid req = true := (updHoursInvalid_eq_true_iff req).mpr hcond
    rw [updateCourse_invalid_case store courseId h]

/-- C1 witness for the amended statement: a numeric out-of-range lecture
value still is rejected with 400. -/
theorem updateCourse_invalidInput_iff_witness :
    (updateCourse [] 0
        { code := "CS101", name := "Intro", prerequisites := "", department := "CS",
          semester := "Fall", lectureCreditHours := some 5, labCreditHours := some 1 }).status = 400 :=
  (updateCourse_invalidInput_iff [] 0 _).mpr
    (Or.inl ⟨5, rfl, Or.inr (by norm_num)⟩)

/-! ### Prerequisite-resolution lemmas -/

theorem missingOf_findByCodes (store : List Course) (toks : List String) :
    missingOf toks (findByCodes store toks) =
      toks.filter (fun t => !(store.any (fun c => c.code == t))) := by
  unfold missingOf findByCodes
  apply List.filter_congr
  intro t ht
  by_cases h : store.any (fun c => c.code == t) = true
  · rcases List.any_eq_true.mp h with ⟨c, hc, hct⟩
    have hmem : c ∈ store.filter (fun c => toks.contains c.code) := by
      rw [List.mem_filter]
      refine ⟨hc, ?_⟩
      have : c.code = t := by simpa using hct
      rw [this]
      simpa using ht
    have : (store.filter (fun c => toks.contains c.code)).any (fun c => c.code == t) = true :=
      List.any_eq_true.mpr ⟨c, hmem, hct⟩
    rw [this, h]
  · have h' : store.any (fun c => c.code == t) = false := by simpa using h
    have : (store.filter (fun c => toks.contains c.code)).any (fun c => c.code == t) = false := by
      rw [Bool.eq_false_iff]
      intro hany
      rcases List.any_eq_true.mp hany with ⟨c, hcmem, hct⟩
      have hc : c ∈ store := (List.mem_filter.mp hcmem).1
      exact (Bool.eq_false_iff.mp h') (List.any_eq_true.mpr ⟨c, hc, hct⟩)
    rw [this, h']

theorem missing_tokens_eq_nil_iff (store : List Course) (toks : List String) :
    toks.filter (fun t => !(store.any (fun c => c.code == t))) = [] ↔
      ∀ t ∈ toks, ∃ c ∈ store, c.code = t := by
  rw [List.filter_eq_nil_iff]
  simp [List.any_eq_true]

theorem addCourse_missing_case {req : CourseReq} (store : List Course) (newId : Nat)
    (h1 : addHoursNaN req = false) (h2 : addHoursOutOfRange req = false)
    (hp : strFalsy req.prerequisites = false)
    (hm : (addPrereqTokens req.prerequisites).filter
        (fun t => !(store.any (fun c => c.code == t))) ≠ []) :
    addCourse store newId req =
      { status := 404,
        message := prereqNotFoundMsg ((addPrereqTokens req.prerequisites).filter
          (fun t => !(store.any (fun c => c.code == t)))),
        payload := none, store := store } := by
  unfold addCourse
  simp only [h1, h2, hp, Bool.false_eq_true, if_false]
  rw [missingOf_findByCodes]
  rw [if_neg]
  simp [hm]

theorem addCourse_resolved_case {req : CourseReq} (store : List Course) (newId : Nat)
    (h1 : addHoursNaN req = false) (h2 : addHoursOutOfRange req = false)
    (hp : strFalsy req.prerequisites = false)
    (hm : ∀ t ∈ addPrereqTokens req.prerequisites, ∃ c ∈ store, c.code = t) :
    addCourse store newId req =
      { status := 201, message := "Course added successfully",
        payload := some (mkNewCourse newId req
          ((findByCodes store (addPrereqTokens req.prerequisites)).map (fun c => c.id))),
        store := store ++ [mkNewCourse newId req
          ((findByCodes store (addPrereqTokens req.prerequisites)).map (fun c => c.id))] } := by
  unfold addCourse
  simp only [h1, h2, hp, Bool.false_eq_true, if_false]
  rw [missingOf_findByCodes]
  rw [if_pos]
  simp [(missing_tokens_eq_nil_iff store _).mpr hm]

theorem updateCourse_missing_case {req : CourseReq} (store : List Course) (courseId : Nat)
    (h : updHoursInvalid req = false)
    (hp : strFalsy req.prerequisites = false)
    (hm : (updPrereqTokens req.prerequisites).filter
        (fun t => !(store.any (fun c => c.code == t))) ≠ []) :
    updateCourse store courseId req =
      { status := 404,
        message := prereqNotFoundMsg ((updPrereqTokens req.prerequisites).filter
          (fun t => !(store.any (fun c => c.code == t)))),
        payload := none, store := store } := by
  unfold updateCourse
  simp only [h, hp, Bool.false_eq_true, if_false]
  rw [missingOf_findByCodes]
  rw [if_neg]
  simp [hm]

theorem updateCourse_resolved_case {req : CourseReq} (store : List Course) (courseId : Nat)
    (h : updHoursInvalid req = false)
    (hp : strFalsy req.prerequisites = false)
    (hm : ∀ t ∈ updPrereqTokens req.prerequisites, ∃ c ∈ store, c.code = t) :
    updateCourse store courseId req =
      updateApply store courseId req
        ((findByCodes store (updPrereqTokens req.prerequisites)).map (fun c => c.id)) := by
  unfold updateCourse
  simp only [h, hp, Bool.false_eq_true, if_false]
  rw [missingOf_findByCodes]
  rw [if_pos]
  simp [(missing_tokens_eq_nil_iff store _).mpr hm]

theorem prereqNotFoundMsg_ne_courseNotFound (missing : List String) :
    prereqNotFoundMsg missing ≠ "Course not found" := by
  intro h
  have hlen := congrArg String.length h
  rw [prereqNotFoundMsg, String.length_append] at hlen
  have h32 : ("Prerequisite courses not found: " : String).length = 32 := rfl
  have h16 : ("Course not found" : String).length = 16 := rfl
  rw [h32, h16] at hlen
  omega

/-! ### Shared concrete fixtures for witnesses -/

/-- A stored course with code CS101. -/
def cCS101 : Course :=
  { id := 0, code := "CS101", name := "Intro to CS", department := "CS", semester := "Fall",
    lectureCreditHours := some 3, labCreditHours := some 1, prerequisites := [] }

/-- A stored course with code CS102. -/
def cCS102 : Course :=
  { id := 1, code := "CS102", name := "Data Structures", department := "CS", semester := "Fall",
    lectureCreditHours := some 2, labCreditHours := some 0, prerequisites := [] }

/-! ### C3 -/

/-- C3 (confirmed): with a non-empty prerequisites string (and passing
hour checks), `addCourse` splits on commas and trims each token; if some
candidate code matches no stored course it answers 404 with a message
naming exactly the missing codes joined comma-separated and creates
nothing; if all codes resolve, the new course is persisted with the
resolved identities as its prerequisites. -/
theorem addCourse_prereq_resolution (store : List Course) (newId : Nat) (req : CourseReq)
    (h1 : addHoursNaN req = false) (h2 : addHoursOutOfRange req = false)
    (hp : req.prerequisites ≠ "") :
    ((addPrereqTokens req.prerequisites).filter
        (fun t => !(store.any (fun c => c.code == t))) ≠ [] →
      (addCourse store newId req).status = 404 ∧
      (addCourse store newId req).message = "Prerequisite courses not found: " ++
        joinCommaSpace ((addPrereqTokens req.prerequisites).filter
          (fun t => !(store.any (fun c => c.code == t)))) ∧
      (addCourse store newId req).payload = none ∧
      (addCourse store newId req).store = store) ∧
    ((∀ t ∈ addPrereqTokens req.prerequisites, ∃ c ∈ store, c.code = t) →
      (addCourse store newId req).status = 201 ∧
      (addCourse store newId req).payload = some (mkNewCourse newId req
        ((findByCodes store (addPrereqTokens req.prerequisites)).map (fun c => c.id))) ∧
      (addCourse store newId req).store = store ++ [mkNewCourse newId req
        ((findByCodes store (addPrereqTokens req.prerequisites)).map (fun c => c.id))]) := by
  have hp' : strFalsy req.prerequisites = false := (strFalsy_eq_false_iff _).mpr hp
  constructor
  · intro hm
    rw [addCourse_missing_case store newId h1 h2 hp' hm]
    exact ⟨rfl, rfl, rfl, rfl⟩
  · intro hall
    rw [addCourse_resolved_case store newId h1 h2 hp' hall]
    exact ⟨rfl, rfl, rfl⟩

/-- C3 witness: requesting prerequisites "CS101, CS202" when only CS101
exists fails with 404 naming CS202 (the token was trimmed before lookup)
and creates nothing. -/
theorem addCourse_prereq_resolution_witness :
    (addCourse [cCS101] 5
      { code := "CS300", name := "Algorithms", prerequisites := "CS101, CS202",
        department := "CS", semester := "Spring",
        lectureCreditHours := some 3, labCreditHours := some 1 }).status = 404 ∧
    (addCourse [cCS101] 5
      { code := "CS300", name := "Algorithms", prerequisites := "CS101, CS202",
        department := "CS", semester := "Spring",
        lectureCreditHours := some 3, labCreditHours := some 1 }).message =
      "Prerequisite courses not found: CS202" ∧
    (addCourse [cCS101] 5
      { code := "CS300", name := "Algorithms", prerequisites := "CS101, CS202",
        department := "CS", semester := "Spring",
        lectureCreditHours := some 3, labCreditHours := some 1 }).store = [cCS101] := by
  have h := (addCourse_prereq_resolution [cCS101] 5
    { code := "CS300", name := "Algorithms", prerequisites := "CS101, CS202",
      department := "CS", semester := "Spring",
      lectureCreditHours := some 3, labCreditHours := some 1 }
    (by decide) (by decide) (by decide)).1 (by decide)
  refine ⟨h.1, ?_, h.2.2.2⟩
  rw [h.2.1]
  decide

/-! ### C5 -/

/-- C5 (confirmed): update-path prerequisite resolution splits on commas
without trimming: each raw token (surrounding whitespace included) is
looked up verbatim; if some raw token matches no stored course code the
handler answers 404 listing exactly the unmatched tokens and changes
nothing; if every raw token resolves, the update proceeds with the
resolved identities as in create. -/
theorem updateCourse_prereq_verbatim (store : List Course) (courseId : Nat) (req : CourseReq)
    (h : updHoursInvalid req = false) (hp : req.prerequisites ≠ "") :
    ((updPrereqTokens req.prerequisites).filter
        (fun t => !(store.any (fun c => c.code == t))) ≠ [] →
      (updateCourse store courseId req).status = 404 ∧
      (updateCourse store courseId req).message = "Prerequisite courses not found: " ++
        joinCommaSpace ((updPrereqTokens req.prerequisites).filter
          (fun t => !(store.any (fun c => c.code == t)))) ∧
      (updateCourse store courseId req).store = store) ∧
    ((∀ t ∈ updPrereqTokens req.prerequisites, ∃ c ∈ store, c.code = t) →
      updateCourse store courseId req =
        updateApply store courseId req
          ((findByCodes store (updPrereqTokens req.prerequisites)).map (fun c => c.id))) := by
  have hp' : strFalsy req.prerequisites = false := (strFalsy_eq_false_iff _).mpr hp
  constructor
  · intro hm
    rw [updateCourse_missing_case store courseId h hp' hm]
    exact ⟨rfl, rfl, rfl⟩
  · intro hall
    exact updateCourse_resolved_case store courseId h hp' hall

/-- C5 witness: with CS101 and CS102 both stored, updating with
prerequisites "CS101, CS102" fails: the second raw token " CS102" (with
its leading space) matches no code, and the 404 message lists it
verbatim. -/
theorem updateCourse_prereq_verbatim_witness :
    (updateCourse [cCS101, cCS102] 0
      { code := "CS101", name := "Intro to CS", prerequisites := "CS101, CS102",
        department := "CS", semester := "Fall",
        lectureCreditHours := some 3, labCreditHours := some 1 }).status = 404 ∧
    (updateCourse [cCS101, cCS102] 0
      { code := "CS101", name := "Intro to CS", prerequisites := "CS101, CS102",
        department := "CS", semester := "Fall",
        lectureCreditHours := some 3, labCreditHours := some 1 }).message =
      "Prerequisite courses not found:  CS102" ∧
    (updateCourse [cCS101, cCS102] 0
      { code := "CS101", name := "Intro to CS", prerequisites := "CS101, CS102",
        department := "CS", semester := "Fall",
        lectureCreditHours := some 3, labCreditHours := some 1 }).store = [cCS101, cCS102] := by
  have h := (updateCourse_prereq_verbatim [cCS101, cCS102] 0
    { code := "CS101", name := "Intro to CS", prerequisites := "CS101, CS102",
      department := "CS", semester := "Fall",
      lectureCreditHours := some 3, labCreditHours := some 1 }
    (by decide) (by decide)).1 (by decide)
  refine ⟨h.1, ?_, h.2.2⟩
  rw [h.2.1]
  decide

/-! ### C9 -/

/-- C9 (confirmed): error precedence in `updateCourse` — when the hour
check passes, the courseId matches no stored course and some prerequisite
token is unresolvable, the response is the prerequisite 404 listing the
missing tokens, not the "Course not found" error, and nothing changes. -/
theorem updateCourse_error_precedence (store : List Course) (courseId : Nat) (req : CourseReq)
    (h : updHoursInvalid req = false) (hp : req.prerequisites ≠ "")
    (hid : ∀ c ∈ store, c.id ≠ courseId)
    (hm : (updPrereqTokens req.prerequisites).filter
        (fun t => !(store.any (fun c => c.code == t))) ≠ []) :
    (updateCourse store courseId req).status = 404 ∧
    (updateCourse store courseId req).message = prereqNotFoundMsg
      ((updPrereqTokens req.prerequisites).filter
        (fun t => !(store.any (fun c => c.code == t)))) ∧
    (updateCourse store courseId req).message ≠ "Course not found" ∧
    (updateCourse store courseId req).store = store := by
  rw [updateCourse_missing_case store courseId h ((strFalsy_eq_false_iff _).mpr hp) hm]
  exact ⟨rfl, rfl, prereqNotFoundMsg_ne_courseNotFound _, rfl⟩

/-- C9 witness: nonexistent courseId 99 together with unresolvable
prerequisite "CS999" gives the prerequisite message, not "Course not
found", and leaves the store as it was. -/
theorem updateCourse_error_precedence_witness :
    (updateCourse [cCS101] 99
      { code := "CS101", name := "Intro to CS", prerequisites := "CS999",
        department := "CS", semester := "Fall",
        lectureCreditHours := some 3, labCreditHours := some 1 }).status = 404 ∧
    (updateCourse [cCS101] 99
      { code := "CS101", name := "Intro to CS", prerequisites := "CS999",
        department := "CS", semester := "Fall",
        lectureCreditHours := some 3, labCreditHours := some 1 }).message ≠ "Course not found" ∧
    (updateCourse [cCS101] 99
      { code := "CS101", name := "Intro to CS", prerequisites := "CS999",
        department := "CS", semester := "Fall",
        lectureCreditHours := some 3, labCreditHours := some 1 }).store = [cCS101] := by
  have h := updateCourse_error_precedence [cCS101] 99
    { code := "CS101", name := "Intro to CS", prerequisites := "CS999",
      department := "CS", semester := "Fall",
      lectureCreditHours := some 3, labCreditHours := some 1 }
    (by decide) (by decide) (by decide) (by decide)
  exact ⟨h.1, h.2.2.1, h.2.2.2⟩

/-! ### C8 -/

theorem mem_of_mem_removeFirstById {store : List Course} {i : Nat} {d : Course}
    (h : d ∈ removeFirstById store i) : d ∈ store := by
  induction store with
  | nil => simpa [removeFirstById] using h
  | cons c cs ih =>
      unfold removeFirstById at h
      by_cases hc : c.id == i
      · rw [if_pos hc] at h
        exact List.mem_cons_of_mem _ h
      · rw [if_neg hc] at h
        rcases List.mem_cons.mp h with rfl | h'
        · exact List.mem_cons_self _ _
        · exact List.mem_cons_of_mem _ (ih h')

theorem removeFirstById_no_id {store : List Course} {i : Nat}
    (hn : (store.map (fun c => c.id)).Nodup) :
    ∀ d ∈ removeFirstById store i, d.id ≠ i := by
  induction store with
  | nil => simp [removeFirstById]
  | cons c cs ih =>
      simp only [List.map_cons, List.nodup_cons] at hn
      obtain ⟨hni, hnd⟩ := hn
      intro d hd
      unfold removeFirstById at hd
      by_cases hc : c.id == i
      · rw [if_pos hc] at hd
        intro hdi
        apply hni
        have hmap : d.id ∈ cs.map (fun c => c.id) := List.mem_map_of_mem _ hd
        have hci : c.id = i := by simpa using hc
        rw [hci, ← hdi]
        exact hmap
      · rw [if_neg hc] at hd
        rcases List.mem_cons.mp hd with rfl | hd'
        · simpa using hc
        · exact ih hnd d hd'

theorem mem_removeFirstById_of_ne {store : List Course} {i : Nat} {d : Course}
    (hd : d ∈ store) (hne : d.id ≠ i) : d ∈ removeFirstById store i := by
  induction store with
  | nil => simpa using hd
  | cons c cs ih =>
      unfold removeFirstById
      by_cases hc : c.id == i
      · rw [if_pos hc]
        rcases List.mem_cons.mp hd with rfl | h
        · exact absurd (by simpa using hc) hne
        · exact h
      · rw [if_neg hc]
        rcases List.mem_cons.mp hd with rfl | h
        · exact List.mem_cons_self _ _
        · exact List.mem_cons_of_mem _ (ih h)

/-- C8 (confirmed): deleting a stored identity answers 200 and removes
exactly that course; deleting an absent identity answers 404 "Course not
found" and changes nothing; hence deleting the same identity twice gives
success then NotFound.  (Store ids are assumed pairwise distinct, the
database `_id` invariant.) -/
theorem deleteCourse_idempotence (store : List Course) (courseId : Nat)
    (hids : (store.map (fun c => c.id)).Nodup) :
    ((∃ c ∈ store, c.id = courseId) →
      (deleteCourse store courseId).status = 200 ∧
      (deleteCourse store courseId).message = "Course deleted successfully" ∧
      (∀ d ∈ (deleteCourse store courseId).store, d ∈ store ∧ d.id ≠ courseId) ∧
      (∀ d ∈ store, d.id ≠ courseId → d ∈ (deleteCourse store courseId).store) ∧
      (deleteCourse (deleteCourse store courseId).store courseId).status = 404 ∧
      (deleteCourse (deleteCourse store courseId).store courseId).store =
        (deleteCourse store courseId).store) ∧
    ((∀ c ∈ store, c.id ≠ courseId) →
      (deleteCourse store courseId).status = 404 ∧
      (deleteCourse store courseId).message = "Course not found" ∧
      (deleteCourse store courseId).store = store) := by
  constructor
  · rintro ⟨c, hc, hci⟩
    obtain ⟨x, hx⟩ : ∃ x, store.find? (fun d => d.id == courseId) = some x := by
      cases h : store.find? (fun d => d.id == courseId) with
      | none =>
          rw [List.find?_eq_none] at h
          exact absurd (by simp [hci]) (h c hc)
      | some x => exact ⟨x, rfl⟩
    have hnone : (removeFirstById store courseId).find? (fun d => d.id == courseId) = none :=
      List.find?_eq_none.mpr (fun d hd => by
        simpa using removeFirstById_no_id hids d hd)
    refine ⟨?_, ?_, ?_, ?_, ?_, ?_⟩
    · simp only [deleteCourse, hx]
    · simp only [deleteCourse, hx]
    · simp only [deleteCourse, hx]
      intro d hd
      exact ⟨mem_of_mem_removeFirstById hd, removeFirstById_no_id hids d hd⟩
    · simp only [deleteCourse, hx]
      intro d hd hne
      exact mem_removeFirstById_of_ne hd hne
    · simp only [deleteCourse, hx, hnone]
    · simp only [deleteCourse, hx, hnone]
  · intro hall
    have hnone : store.find? (fun d => d.id == courseId) = none :=
      List.find?_eq_none.mpr (fun d hd => by simpa using hall d hd)
    simp [deleteCourse, hnone]

/-- C8 witness: deleting id 0 from a two-course store succeeds and leaves
CS102; deleting id 0 again answers 404 and changes nothing. -/
theorem deleteCourse_idempotence_witness :
    (deleteCourse [cCS101, cCS102] 0).status = 200 ∧
    (deleteCourse (deleteCourse [cCS101, cCS102] 0).store 0).status = 404 ∧
    (deleteCourse (deleteCourse [cCS101, cCS102] 0).store 0).store =
      (deleteCourse [cCS101, cCS102] 0).store ∧
    (deleteCourse [cCS101, cCS102] 1).status = 200 := by
  have h := (deleteCourse_idempotence [cCS101, cCS102] 0 (by decide)).1
    ⟨cCS101, by decide, by decide⟩
  have h2 := (deleteCourse_idempotence [cCS101, cCS102] 1 (by decide)).1
    ⟨cCS102, by decide, by decide⟩
  exact ⟨h.1, h.2.2.2.2.1, h.2.2.2.2.2, h2.1⟩

/-! ### C6 -/

/-- C6 (confirmed): `searchCourse` answers 404 whenever zero courses match
the supplied filters and never a 200 with an empty list; when at least one
course matches it answers 200 with exactly the matching courses, each with
its prerequisites expanded to code/name projections. -/
theorem searchCourse_empty_notFound (store : List Course) (q : SearchQuery) :
    ((searchCourse store q).status = 200 → (searchCourse store q).courses ≠ []) ∧
    ((∀ c ∈ store, matchesQuery q c = false) →
      (searchCourse store q).status = 404 ∧
      (searchCourse store q).message = "No courses found matching the criteria" ∧
      (searchCourse store q).courses = []) ∧
    ((∃ c ∈ store, matchesQuery q c = true) →
      (searchCourse store q).status = 200 ∧
      (searchCourse store q).courses =
        (store.filter (matchesQuery q)).map (fun c => (c, expandPrereqs store c))) := by
  cases hfe : (store.filter (matchesQuery q)).isEmpty with
  | true =>
      have hnil : store.filter (matchesQuery q) = [] := List.isEmpty_iff.mp hfe
      refine ⟨?_, ?_, ?_⟩
      · intro h200
        exfalso
        simp [searchCourse, hfe] at h200
      · intro _
        simp [searchCourse, hfe]
      · rintro ⟨c, hc, hmc⟩
        exfalso
        have hmem : c ∈ store.filter (matchesQuery q) := List.mem_filter.mpr ⟨hc, hmc⟩
        rw [hnil] at hmem
        simp at hmem
  | false =>
      have hne : store.filter (matchesQuery q) ≠ [] := by
        intro hnil
        rw [hnil] at hfe
        simp at hfe
      refine ⟨?_, ?_, ?_⟩
      · intro _
        simp only [searchCourse, hfe, Bool.false_eq_true, if_false]
        simp only [ne_eq, List.map_eq_nil_iff]
        exact hne
      · intro hall
        exfalso
        exact hne (List.filter_eq_nil_iff.mpr (fun a ha => by simp [hall a ha]))
      · intro _
        simp [searchCourse, hfe]

/-- C6 witness: an unconstrained query on a nonempty store answers 200
with the full expanded list, and on a store whose one course fails a
semester filter answers 404 with no list. -/
theorem searchCourse_empty_notFound_witness :
    ((searchCourse [cCS101] emptyQuery).status = 200 ∧
     (searchCourse [cCS101] emptyQuery).courses =
       ([cCS101].filter (matchesQuery emptyQuery)).map
         (fun c => (c, expandPrereqs [cCS101] c))) ∧
    ((searchCourse [cCS101]
        { emptyQuery with semester := "Spring" }).status = 404 ∧
     (searchCourse [cCS101]
        { emptyQuery with semester := "Spring" }).courses = []) := by
  have h1 := (searchCourse_empty_notFound [cCS101] emptyQuery).2.2
    ⟨cCS101, by decide, by decide⟩
  have h2 := (searchCourse_empty_notFound [cCS101]
    { emptyQuery with semester := "Spring" }).2.1 (by decide)
  exact ⟨⟨h1.1, h1.2⟩, ⟨h2.1, h2.2.2⟩⟩

/-! ### C10 -/

/-- C10 (confirmed): prerequisite resolution queries distinct stored
documents whose code lies in the candidate set, so when the prerequisites
string lists an existing code more than once and all tokens resolve, the
create succeeds and the stored prerequisites hold each matching course's
identity exactly once (store ids being pairwise distinct). -/
theorem addCourse_prereq_dedup (store : List Course) (newId : Nat) (req : CourseReq)
    (hids : (store.map (fun c => c.id)).Nodup)
    (h1 : addHoursNaN req = false) (h2 : addHoursOutOfRange req = false)
    (hp : req.prerequisites ≠ "")
    (hall : ∀ t ∈ addPrereqTokens req.prerequisites, ∃ c ∈ store, c.code = t) :
    (addCourse store newId req).status = 201 ∧
    (addCourse store newId req).payload = some (mkNewCourse newId req
      ((findByCodes store (addPrereqTokens req.prerequisites)).map (fun c => c.id))) ∧
    ((findByCodes store (addPrereqTokens req.prerequisites)).map (fun c => c.id)).Nodup ∧
    (∀ c ∈ store, c.code ∈ addPrereqTokens req.prerequisites →
      ((findByCodes store (addPrereqTokens req.prerequisites)).map
        (fun c => c.id)).count c.id = 1) := by
  have hnd : ((findByCodes store (addPrereqTokens req.prerequisites)).map
      (fun c => c.id)).Nodup := by
    have hsub : List.Sublist
        ((findByCodes store (addPrereqTokens req.prerequisites)).map (fun c => c.id))
        (store.map (fun c => c.id)) :=
      List.Sublist.map (fun c => c.id) (List.filter_sublist store)
    exact List.Nodup.sublist hsub hids
  rw [addCourse_resolved_case store newId h1 h2 ((strFalsy_eq_false_iff _).mpr hp) hall]
  refine ⟨rfl, rfl, hnd, ?_⟩
  intro c hc hcode
  apply List.count_eq_one_of_mem hnd
  apply List.mem_map_of_mem
  unfold findByCodes
  rw [List.mem_filter]
  exact ⟨hc, by simpa using hcode⟩

/-- C10 witness: prerequisites "CS101,CS101" with CS101 stored once gives
a successful create whose stored prerequisites contain id 0 exactly once. -/
theorem addCourse_prereq_dedup_witness :
    (addCourse [cCS101, cCS102] 7
      { code := "CS400", name := "Advanced", prerequisites := "CS101,CS101",
        department := "CS", semester := "Spring",
        lectureCreditHours := some 3, labCreditHours := some 0 }).status = 201 ∧
    ((findByCodes [cCS101, cCS102]
        (addPrereqTokens "CS101,CS101")).map (fun c => c.id)).count cCS101.id = 1 := by
  have h := addCourse_prereq_dedup [cCS101, cCS102] 7
    { code := "CS400", name := "Advanced", prerequisites := "CS101,CS101",
      department := "CS", semester := "Spring",
      lectureCreditHours := some 3, labCreditHours := some 0 }
    (by decide) (by decide) (by decide) (by decide) (by decide)
  exact ⟨h.1, h.2.2.2 cCS101 (by decide) (by decide)⟩

/-! ### C7 -/

theorem filterMap_eq_map_of_some {α β : Type} {l : List α} {f : α → Option β} {g : α → β}
    (h : ∀ a ∈ l, f a = some (g a)) : l.filterMap f = l.map g := by
  induction l with
  | nil => rfl
  | cons a as ih =>
      rw [List.filterMap_cons, h a (List.mem_cons_self _ _), List.map_cons,
        ih (fun b hb => h b (List.mem_cons_of_mem _ hb))]

theorem find?_id_eq_of_nodup {store : List Course} {c : Course}
    (hids : (store.map (fun d => d.id)).Nodup) (hc : c ∈ store) :
    store.find? (fun d => d.id == c.id) = some c := by
  induction store with
  | nil => simp at hc
  | cons a as ih =>
      simp only [List.map_cons, List.nodup_cons] at hids
      obtain ⟨hni, hnd⟩ := hids
      rcases List.mem_cons.mp hc with rfl | hmem
      · exact List.find?_cons_of_pos _ (by simp)
      · have hne : (a.id == c.id) = false := by
          rw [Bool.eq_false_iff]
          intro hEq
          apply hni
          have : c.id ∈ as.map (fun d => d.id) := List.mem_map_of_mem _ hmem
          have ha : a.id = c.id := by simpa using hEq
          rw [ha]
          exact this
        rw [List.find?_cons_of_neg _ (by simp [hne])]
        exact ih hnd hmem

theorem find?_append_of_some {l1 l2 : List Course} {p : Course → Bool} {c : Course}
    (h : l1.find? p = some c) : (l1 ++ l2).find? p = some c := by
  rw [List.find?_append, h]
  rfl

theorem expandPrereqs_eq_map (store l2 found : List Course) (c0 : Course)
    (hids : (store.map (fun d => d.id)).Nodup)
    (hsub : ∀ c ∈ found, c ∈ store)
    (hpr : c0.prerequisites = found.map (fun c => c.id)) :
    expandPrereqs (store ++ l2) c0 =
      found.map (fun c => PopulatedPrereq.mk c.code c.name) := by
  unfold expandPrereqs
  rw [hpr, List.filterMap_map]
  apply filterMap_eq_map_of_some
  intro c hcf
  have hfind : (store ++ l2).find? (fun p => p.id == c.id) = some c :=
    find?_append_of_some (find?_id_eq_of_nodup hids (hsub c hcf))
  simp only [Function.comp]
  rw [hfind]
  rfl

/-- C7 (confirmed): round trip of resolution and expansion — when courses
with codes CS101 and CS102 exist (ids pairwise distinct), creating a
course with prerequisites "CS101,CS102" succeeds, and in the subsequent
full listing the new course's prerequisites expand to exactly the set of
codes CS101 and CS102. -/
theorem addCourse_listCourses_roundtrip (store : List Course) (newId : Nat) (req : CourseReq)
    (hids : (store.map (fun c => c.id)).Nodup)
    (h1 : addHoursNaN req = false) (h2 : addHoursOutOfRange req = false)
    (hp : req.prerequisites = "CS101,CS102")
    (hc1 : ∃ c ∈ store, c.code = "CS101") (hc2 : ∃ c ∈ store, c.code = "CS102") :
    (addCourse store newId req).status = 201 ∧
    ∃ nc expd,
      (addCourse store newId req).payload = some nc ∧
      (nc, expd) ∈ getAllCourses (addCourse store newId req).store ∧
      (expd.map (fun p => p.code)).toFinset = ({"CS101", "CS102"} : Finset String) := by
  have htoks : addPrereqTokens req.prerequisites = ["CS101", "CS102"] := by
    rw [hp]
    rfl
  have hall : ∀ t ∈ addPrereqTokens req.prerequisites, ∃ c ∈ store, c.code = t := by
    rw [htoks]
    intro t ht
    rcases List.mem_cons.mp ht with rfl | ht2
    · exact hc1
    · rcases List.mem_cons.mp ht2 with rfl | ht3
      · exact hc2
      · simp at ht3
  have hp' : req.prerequisites ≠ "" := by
    rw [hp]
    decide
  rw [addCourse_resolved_case store newId h1 h2 ((strFalsy_eq_false_iff _).mpr hp') hall]
  refine ⟨rfl, mkNewCourse newId req
      ((findByCodes store (addPrereqTokens req.prerequisites)).map (fun c => c.id)),
    (findByCodes store (addPrereqTokens req.prerequisites)).map
      (fun c => PopulatedPrereq.mk c.code c.name), rfl, ?_, ?_⟩
  · have hexp : expandPrereqs
        (store ++ [mkNewCourse newId req
          ((findByCodes store (addPrereqTokens req.prerequisites)).map (fun c => c.id))])
        (mkNewCourse newId req
          ((findByCodes store (addPrereqTokens req.prerequisites)).map (fun c => c.id))) =
        (findByCodes store (addPrereqTokens req.prerequisites)).map
          (fun c => PopulatedPrereq.mk c.code c.name) :=
      expandPrereqs_eq_map store _ _ _ hids
        (fun c hcf => (List.mem_filter.mp hcf).1) rfl
    unfold getAllCourses
    rw [List.mem_map]
    refine ⟨mkNewCourse newId req
      ((findByCodes store (addPrereqTokens req.prerequisites)).map (fun c => c.id)),
      by simp, ?_⟩
    rw [hexp]
  · ext a
    simp only [List.mem_toFinset, List.mem_map, Finset.mem_insert, Finset.mem_singleton]
    constructor
    · rintro ⟨p, ⟨c, hcf, rfl⟩, rfl⟩
      have := (List.mem_filter.mp hcf).2
      rw [htoks] at this
      simpa using this
    · rintro (rfl | rfl)
      · rcases hc1 with ⟨c, hc, hcode⟩
        refine ⟨PopulatedPrereq.mk c.code c.name, ⟨c, ?_, rfl⟩, hcode⟩
        unfold findByCodes
        rw [List.mem_filter]
        refine ⟨hc, ?_⟩
        rw [htoks, hcode]
        decide
      · rcases hc2 with ⟨c, hc, hcode⟩
        refine ⟨PopulatedPrereq.mk c.code c.name, ⟨c, ?_, rfl⟩, hcode⟩
        unfold findByCodes
        rw [List.mem_filter]
        refine ⟨hc, ?_⟩
        rw [htoks, hcode]
        decide

/-- C7 witness: with CS101 and CS102 stored, creating with prerequisites
"CS101,CS102" succeeds and the listing expands the new course's
prerequisites to the code set containing CS101 and CS102. -/
theorem addCourse_listCourses_roundtrip_witness :
    (addCourse [cCS101, cCS102] 2
      { code := "CS200", name := "Algo", prerequisites := "CS101,CS102",
        department := "CS", semester := "Spring",
        lectureCreditHours := some 3, labCreditHours := some 1 }).status = 201 ∧
    ∃ nc expd,
      (addCourse [cCS101, cCS102] 2
        { code := "CS200", name := "Algo", prerequisites := "CS101,CS102",
          department := "CS", semester := "Spring",
          lectureCreditHours := some 3, labCreditHours := some 1 }).payload = some nc ∧
      (nc, expd) ∈ getAllCourses (addCourse [cCS101, cCS102] 2
        { code := "CS200", name := "Algo", prerequisites := "CS101,CS102",
          department := "CS", semester := "Spring",
          lectureCreditHours := some 3, labCreditHours := some 1 }).store ∧
      (expd.map (fun p => p.code)).toFinset = ({"CS101", "CS102"} : Finset String) :=
  addCourse_listCourses_roundtrip [cCS101, cCS102] 2
    { code := "CS200", name := "Algo", prerequisites := "CS101,CS102",
      department := "CS", semester := "Spring",
      lectureCreditHours := some 3, labCreditHours := some 1 }
    (by decide) (by decide) (by decide) rfl
    ⟨cCS101, by decide, rfl⟩ ⟨cCS102, by decide, rfl⟩

/-! ### C4 -/

theorem rtoksAt_map_lit (ps : List Char) : ∀ cs, rtoksAt (ps.map RTok.lit) cs = ciMatchesAt ps cs := by
  induction ps with
  | nil => intro cs; rfl
  | cons p ps ih =>
      intro cs
      cases cs with
      | nil => rfl
      | cons c cs' =>
          simp only [List.map_cons, rtoksAt, ciMatchesAt, rtokMatches, ih]

theorem rtokSearch_map_lit (ps : List Char) :
    ∀ cs, rtokSearch (ps.map RTok.lit) cs = ciOccurs ps cs := by
  intro cs
  induction cs with
  | nil =>
      show rtoksAt (ps.map RTok.lit) [] = ciMatchesAt ps []
      exact rtoksAt_map_lit ps []
  | cons c cs' ih =>
      show (rtoksAt (ps.map RTok.lit) (c :: cs') || rtokSearch (ps.map RTok.lit) cs') = _
      rw [rtoksAt_map_lit, ih]
      rfl

theorem lexChars_eq_map_lit : ∀ (cs : List Char), (∀ c ∈ cs, (c == '.') = false) →
    lexChars cs = cs.map RTok.lit
  | [], _ => rfl
  | c :: cs', h => by
      have hrest := lexChars_eq_map_lit cs' (fun d hd => h d (List.mem_cons_of_mem _ hd))
      simp only [lexChars, List.map_cons] at hrest ⊢
      rw [h c (List.mem_cons_self _ _), hrest]
      rfl

theorem noRegexMeta_no_dot {pat : String} (h : noRegexMeta pat = true) :
    ∀ c ∈ pat.data, (c == '.') = false := by
  intro c hc
  have hall := (List.all_eq_true.mp h) c hc
  simp only [Bool.not_eq_true'] at hall
  rw [Bool.eq_false_iff]
  intro hEq
  have hcd : c = '.' := by simpa using hEq
  subst hcd
  have htrue : regexMetaChars.contains '.' = true := by decide
  rw [htrue] at hall
  simp at hall

theorem ciRegexMatch_eq_ciSubstring {pat : String} (h : noRegexMeta pat = true) (s : String) :
    ciRegexMatch pat s = ciSubstring pat s := by
  unfold ciRegexMatch ciSubstring
  rw [lexChars_eq_map_lit pat.data (noRegexMeta_no_dot h), rtokSearch_map_lit]

theorem matchesQuery_eq_specMatches {q : SearchQuery}
    (hc : noRegexMeta q.code = true) (hn : noRegexMeta q.name = true)
    (hd : noRegexMeta q.department = true) (c : Course) :
    matchesQuery q c = specMatches q c := by
  unfold matchesQuery specMatches
  rw [ciRegexMatch_eq_ciSubstring hc, ciRegexMatch_eq_ciSubstring hn,
    ciRegexMatch_eq_ciSubstring hd]

theorem ciMatchesAt_iff (ps : List Char) : ∀ cs, ciMatchesAt ps cs = true ↔
    ∃ m r, cs = m ++ r ∧ m.map Char.toLower = ps.map Char.toLower := by
  induction ps with
  | nil =>
      intro cs
      constructor
      · intro _
        exact ⟨[], cs, rfl, rfl⟩
      · intro _
        rfl
  | cons p ps ih =>
      intro cs
      cases cs with
      | nil =>
          simp only [ciMatchesAt, Bool.false_eq_true, false_iff]
          rintro ⟨m, r, hmr, hmap⟩
          rcases List.append_eq_nil.mp hmr.symm with ⟨rfl, -⟩
          simp at hmap
      | cons c cs' =>
          simp only [ciMatchesAt, Bool.and_eq_true, beq_iff_eq]
          constructor
          · rintro ⟨hpc, hrest⟩
            rcases (ih cs').mp hrest with ⟨m, r, hmr, hmap⟩
            exact ⟨c :: m, r, by rw [hmr]; rfl, by simp [hmap, hpc]⟩
          · rintro ⟨m, r, hmr, hmap⟩
            cases m with
            | nil => simp at hmap
            | cons a m' =>
                have hac : a = c := by
                  have := congrArg (fun l => l.headI) hmr
                  simpa using this.symm
                subst hac
                simp only [List.map_cons, List.cons_eq_cons] at hmap
                have hcs' : cs' = m' ++ r := by
                  have := congrArg List.tail hmr
                  simpa using this
                exact ⟨hmap.1.symm, (ih cs').mpr ⟨m', r, hcs', hmap.2⟩⟩

/-- `ciOccurs` really is the case-insensitive substring relation: it holds
exactly when some contiguous slice of the text equals the pattern up to
lowercasing. -/
theorem ciOccurs_iff (ps : List Char) : ∀ cs, ciOccurs ps cs = true ↔
    ∃ l m r, cs = l ++ m ++ r ∧ m.map Char.toLower = ps.map Char.toLower := by
  intro cs
  induction cs with
  | nil =>
      show ciMatchesAt ps [] = true ↔ _
      rw [ciMatchesAt_iff]
      constructor
      · rintro ⟨m, r, hmr, hmap⟩
        exact ⟨[], m, r, by simpa using hmr, hmap⟩
      · rintro ⟨l, m, r, hmr, hmap⟩
        rcases List.append_eq_nil.mp hmr.symm with ⟨hlm, rfl⟩
        rcases List.append_eq_nil.mp hlm with ⟨rfl, rfl⟩
        exact ⟨[], [], rfl, hmap⟩
  | cons c cs' ih =>
      show (ciMatchesAt ps (c :: cs') || ciOccurs ps cs') = true ↔ _
      rw [Bool.or_eq_true, ciMatchesAt_iff, ih]
      constructor
      · rintro (⟨m, r, hmr, hmap⟩ | ⟨l, m, r, hmr, hmap⟩)
        · exact ⟨[], m, r, by simpa using hmr, hmap⟩
        · exact ⟨c :: l, m, r, by rw [hmr]; rfl, hmap⟩
      · rintro ⟨l, m, r, hmr, hmap⟩
        cases l with
        | nil =>
            refine Or.inl ⟨m, r, ?_, hmap⟩
            simpa using hmr
        | cons a l' =>
            refine Or.inr ⟨l', m, r, ?_, hmap⟩
            have := congrArg List.tail hmr
            simpa using this

/-- The course of the C4 counterexample: lecture credit hours 2.5. -/
def cHalf : Course :=
  { id := 3, code := "CS250", name := "Half", department := "CS", semester := "Fall",
    lectureCreditHours := some (Rat.mk' 5 2), labCreditHours := some 1, prerequisites := [] }

/-- The filter of the C4 counterexample: only `maxLectureHours = "2.5"`. -/
def qHalf : SearchQuery :=
  { code := "", name := "", department := "", semester := "",
    minLectureHours := "", maxLectureHours := "2.5", minLabHours := "", maxLabHours := "" }

theorem decimalVal_two_point_five : decimalVal "2.5" = some (Rat.mk' 5 2) := by
  simp [decimalVal, decimalCore, digitsToNat]
  rw [Rat.mk'_eq_divInt, Rat.divInt_eq_div]
  norm_num

/-- C4 counterexample: under the claimed semantics the filter
`maxLectureHours = "2.5"` is an inclusive numeric bound, so the stored
course with lecture hours 2.5 matches (`claimMatches`); but the code
routes the bound through `parseInt` (value 2), excludes the course, and
answers 404 with no courses. -/
theorem searchCourse_inclusive_bounds_cex :
    claimMatches qHalf cHalf = true ∧
    cHalf ∈ [cHalf] ∧
    (searchCourse [cHalf] qHalf).status = 404 ∧
    (searchCourse [cHalf] qHalf).courses = [] := by
  refine ⟨?_, by decide, by decide, by decide⟩
  simp only [claimMatches, qHalf]
  rw [decimalVal_two_point_five]
  decide

/-- C4 (amended, proved): for filter strings free of regex metacharacters,
`searchCourse` returns exactly the courses satisfying the conjunction of
the supplied filters — code, name, department as case-insensitive
substring matches, semester as exact match, and the hour bounds as
inclusive bounds at the `parseInt`-truncated integer value of the filter
string (absent filters impose no constraint) — with 404 exactly on an
empty match set. -/
theorem searchCourse_filter_semantics (store : List Course) (q : SearchQuery)
    (hc : noRegexMeta q.code = true) (hn : noRegexMeta q.name = true)
    (hd : noRegexMeta q.department = true) :
    (searchCourse store q).courses =
      (store.filter (specMatches q)).map (fun c => (c, expandPrereqs store c)) ∧
    (store.filter (specMatches q) = [] → (searchCourse store q).status = 404) ∧
    (store.filter (specMatches q) ≠ [] → (searchCourse store q).status = 200) := by
  have hfe : store.filter (matchesQuery q) = store.filter (specMatches q) :=
    List.filter_congr (fun c _ => matchesQuery_eq_specMatches hc hn hd c)
  refine ⟨?_, ?_, ?_⟩
  · cases hq : (store.filter (specMatches q)).isEmpty with
    | true =>
        have hnil := List.isEmpty_iff.mp hq
        simp [searchCourse, hfe, hq, hnil]
    | false => simp [searchCourse, hfe, hq]
  · intro hnil
    have hq : (store.filter (specMatches q)).isEmpty = true := by simp [hnil]
    simp [searchCourse, hfe, hq]
  · intro hne
    have hq : (store.filter (specMatches q)).isEmpty = false := by
      rw [Bool.eq_false_iff]
      intro habs
      exact hne (List.isEmpty_iff.mp habs)
    simp [searchCourse, hfe, hq]

/-- A course with lecture credit hours 1.5, for the bounds part of the C4
witness. -/
def cOnePointFive : Course :=
  { id := 4, code := "CS150", name := "Light", department := "CS", semester := "Fall",
    lectureCreditHours := some (Rat.mk' 3 2), labCreditHours := some 0, prerequisites := [] }

/-- Department-substring filter "cs". -/
def qDept : SearchQuery :=
  { code := "", name := "", department := "cs", semester := "",
    minLectureHours := "", maxLectureHours := "", minLabHours := "", maxLabHours := "" }

/-- Lecture-hour bounds 2..3. -/
def qBounds : SearchQuery :=
  { code := "", name := "", department := "", semester := "",
    minLectureHours := "2", maxLectureHours := "3", minLabHours := "", maxLabHours := "" }

/-- C4 witness: the amended semantics applied twice — a case-insensitive
department substring filter "cs" matches the stored course (200 with the
expanded projection), and integer bounds 2..3 exclude a course with
lecture hours 1.5 (404). -/
theorem searchCourse_filter_semantics_witness :
    ((searchCourse [cCS101] qDept).courses =
       ([cCS101].filter (specMatches qDept)).map (fun c => (c, expandPrereqs [cCS101] c)) ∧
     (searchCourse [cCS101] qDept).status = 200) ∧
    (searchCourse [cOnePointFive] qBounds).status = 404 := by
  have h1 := searchCourse_filter_semantics [cCS101] qDept (by decide) (by decide) (by decide)
  have h2 := searchCourse_filter_semantics [cOnePointFive] qBounds
    (by decide) (by decide) (by decide)
  exact ⟨⟨h1.1, h1.2.2 (by decide)⟩, h2.2.1 (by decide)⟩
